import Mathlib

/-!
Verification of the acceptor/proposer core of a single-decree Paxos agent.

The Rust source is embedded shallowly:

* `ProposalNumber` and its comparison follow `src/state.rs` (the
  `ProposalNumber` struct and its `Ord` instance).
* The durable/volatile state split and the three RPC handlers `prepare`,
  `accept` and `choose` follow `src/acceptor.rs`.  The `unwrap` in `accept`
  is modelled by an `Option` result.
* The per-request persistence discipline of `handle_request` in
  `src/acceptor.rs` is modelled by an explicit disk record and a success
  flag for the write.
* The value-selection ("pick-up") rule and the accept-phase outcome check
  of `propose` follow `src/proposer.rs`.

Machine integers (`u64` rounds, `u32` ips, `u16` ports) are modelled as
`Nat`; none of the verified operations performs arithmetic that could
overflow (the only arithmetic is `next_round + 1`).
-/

/-- A proposal number: a round (u64) with the proposer's endpoint, ip (u32)
then port (u16), as the tiebreaker.  From the `ProposalNumber` struct in
`src/state.rs`. -/
structure ProposalNumber where
  round : Nat
  proposer_ip : Nat
  proposer_port : Nat
  deriving DecidableEq, Repr

/-- The custom `Ord` instance on proposal numbers from `src/state.rs`:
round takes precedence; ties are broken by proposer ip, then port. -/
def ProposalNumber.cmp (a b : ProposalNumber) : Ordering :=
  if a.round = b.round then
    if a.proposer_ip = b.proposer_ip then
      compare a.proposer_port b.proposer_port
    else
      compare a.proposer_ip b.proposer_ip
  else
    compare a.round b.round

/-- Rust `>` on an `Ord` type: the comparison returns `Greater`. -/
def pnGt (a b : ProposalNumber) : Bool :=
  a.cmp b == Ordering.gt

/-- Rust `>=` on an `Ord` type: the comparison is not `Less`. -/
def pnGe (a b : ProposalNumber) : Bool :=
  a.cmp b != Ordering.lt

/-- Rust `<` on an `Ord` type: the comparison returns `Less`. -/
def pnLt (a b : ProposalNumber) : Bool :=
  a.cmp b == Ordering.lt

/-- The durable half of the agent state (persisted to the data file):
`next_round`, `min_proposal_number`, `accepted_proposal`. -/
structure Durable where
  next_round : Nat
  min_proposal_number : Option ProposalNumber
  accepted_proposal : Option (ProposalNumber × String)
  deriving DecidableEq, Repr

/-- The volatile half of the agent state (never persisted):
`chosen_value`. -/
structure Volatile where
  chosen_value : Option String
  deriving DecidableEq, Repr

/-- The state in which the program starts (`initial` in `src/state.rs`):
zero round counter, nothing promised, accepted or chosen. -/
def initial : Durable × Volatile :=
  ({ next_round := 0, min_proposal_number := none, accepted_proposal := none },
   { chosen_value := none })

/-- Request for the `/prepare` endpoint: an optional proposal number. -/
structure PrepareRequest where
  proposal_number : Option ProposalNumber
  deriving DecidableEq, Repr

/-- Response of the `/prepare` endpoint: the acceptor's accepted proposal,
if any. -/
structure PrepareResponse where
  accepted_proposal : Option (ProposalNumber × String)
  deriving DecidableEq, Repr

/-- The `prepare` handler from `src/acceptor.rs`: if the request carries a
proposal number that is strictly greater than the current promise (or the
promise is unset), record it as the new promise; always answer with the
current accepted proposal. -/
def prepare (request : PrepareRequest) (state : Durable × Volatile) :
    (Durable × Volatile) × PrepareResponse :=
  let state' :=
    match request.proposal_number with
    | some requested =>
      match state.1.min_proposal_number with
      | some proposal_number =>
        if pnGt requested proposal_number then
          ({ state.1 with min_proposal_number := some requested }, state.2)
        else
          state
      | none =>
        ({ state.1 with min_proposal_number := some requested }, state.2)
    | none => state
  (state', { accepted_proposal := state'.1.accepted_proposal })

/-- Request for the `/accept` endpoint: a (proposal number, value) pair. -/
structure AcceptRequest where
  proposal : ProposalNumber × String
  deriving DecidableEq, Repr

/-- Response of the `/accept` endpoint: the acceptor's promise after the
handler ran. -/
structure AcceptResponse where
  min_proposal_number : ProposalNumber
  deriving DecidableEq, Repr

/-- The `accept` handler from `src/acceptor.rs`: if the promise is unset or
the requested number is at least the promise, adopt the proposal (both the
promise and the accepted proposal); answer with the current promise.  The
source reads the final promise with `unwrap`; the `none` branch of that
read is modelled as an `Option` failure. -/
def accept (request : AcceptRequest) (state : Durable × Volatile) :
    Option ((Durable × Volatile) × AcceptResponse) :=
  let state' :=
    if (match state.1.min_proposal_number with
        | some proposal_number => pnGe request.proposal.1 proposal_number
        | none => true) then
      ({ state.1 with
          min_proposal_number := some request.proposal.1,
          accepted_proposal := some request.proposal }, state.2)
    else
      state
  match state'.1.min_proposal_number with
  | some n => some (state', { min_proposal_number := n })
  | none => none

/-- Request for the `/choose` endpoint: the chosen value. -/
structure ChooseRequest where
  value : String
  deriving DecidableEq, Repr

/-- Response of the `/choose` endpoint: empty. -/
structure ChooseResponse where
  deriving DecidableEq, Repr

/-- The `choose` handler from `src/acceptor.rs`: if no value has been
learned yet, print the value (modelled as the list of emitted stdout
lines) and record it in the volatile state; otherwise do nothing. -/
def choose (request : ChooseRequest) (state : Durable × Volatile) :
    ((Durable × Volatile) × List String) × ChooseResponse :=
  match state.2.chosen_value with
  | none => (((state.1, { chosen_value := some request.value }), [request.value]), {})
  | some _ => ((state, []), {})

/-- The serialized durable record held by the data file, together with a
count of how many times the file has been written.  `contents = none`
models a data file that does not exist yet.  The binary encoding is
deterministic and injective, so the file contents are modelled by the
durable record itself. -/
structure Disk where
  contents : Option Durable
  writes : Nat
  deriving DecidableEq, Repr

/-- The `write` function from `src/state.rs`: serialize the durable state,
write it to the data file and fsync.  On success the file holds exactly
the serialized record; `ok = false` models an I/O failure, which the
caller receives as an error. -/
def stateWrite (d : Durable) (disk : Disk) (ok : Bool) : Except Unit Disk :=
  if ok then Except.ok { contents := some d, writes := disk.writes + 1 }
  else Except.error ()

/-- An inbound RPC, as routed by `handle_request` in `src/acceptor.rs`. -/
inductive RpcRequest where
  | prepare (r : PrepareRequest)
  | accept (r : AcceptRequest)
  | choose (r : ChooseRequest)
  deriving DecidableEq, Repr

/-- The response produced for an inbound RPC. -/
inductive RpcResponse where
  | prepare (r : PrepareResponse)
  | accept (r : AcceptResponse)
  | choose (r : ChooseResponse)
  deriving DecidableEq, Repr

/-- The body of `handle_request` in `src/acceptor.rs` for the three POST
endpoints (the `rpc!` macro): run the handler on the in-memory state, then
persist the durable half to the data file, and only if that write succeeds
return the handler's response; a failed write is returned as an error.
`writeOk` says whether the disk write succeeds.  The `unwrap` inside
`accept` is modelled as an error as well (it is proved unreachable).  The
`List String` component collects the stdout lines emitted by `choose`. -/
def handle_request (request : RpcRequest) (state : Durable × Volatile)
    (disk : Disk) (writeOk : Bool) :
    Except Unit ((Durable × Volatile) × Disk × List String × RpcResponse) :=
  match request with
  | .prepare r =>
    match stateWrite (prepare r state).1.1 disk writeOk with
    | .ok disk' => .ok ((prepare r state).1, disk', [], .prepare (prepare r state).2)
    | .error e => .error e
  | .accept r =>
    match accept r state with
    | some (state', response) =>
      match stateWrite state'.1 disk writeOk with
      | .ok disk' => .ok (state', disk', [], .accept response)
      | .error e => .error e
    | none => .error ()
  | .choose r =>
    match stateWrite (choose r state).1.1.1 disk writeOk with
    | .ok disk' =>
      .ok ((choose r state).1.1, disk', (choose r state).1.2,
        .choose (choose r state).2)
    | .error e => .error e

/-- Repeated application of the `choose` handler to a sequence of
requests, collecting all emitted stdout lines. -/
def runChoose (state : Durable × Volatile) :
    List ChooseRequest → (Durable × Volatile) × List String
  | [] => (state, [])
  | r :: rs =>
    let ((state', out), _) := choose r state
    let (state'', outs) := runChoose state' rs
    (state'', out ++ outs)

/-- Rust's `Iterator::max_by_key`, keyed by the proposal number of an
accepted proposal (as used in `propose`, `src/proposer.rs`): `none` on an
empty list, otherwise the last element carrying the maximal key. -/
def max_by_key_pn : List (ProposalNumber × String) → Option (ProposalNumber × String)
  | [] => none
  | x :: xs =>
    match max_by_key_pn xs with
    | none => some x
    | some y => if pnGt x.1 y.1 then some x else some y

/-- The value-selection step of `propose` in `src/proposer.rs`: from the
prepare quorum's responses, take the accepted proposal with the highest
proposal number, if any, and use its value; otherwise keep the proposer's
original value. -/
def selectValue (prepare_responses : List PrepareResponse)
    (original_value : String) : String :=
  match max_by_key_pn (prepare_responses.filterMap
      (fun r => r.accepted_proposal)) with
  | some accepted_proposal => accepted_proposal.2
  | none => original_value

/-- The accept-phase outcome of one `propose` iteration in
`src/proposer.rs` (the code between the accept broadcast and the retry
decision): the proposer's local state is left untouched, and the proposal
counts as chosen iff every quorum response reports exactly the proposer's
own proposal number. -/
def accept_phase (state : Durable × Volatile)
    (proposal_number : ProposalNumber) (responses : List AcceptResponse) :
    (Durable × Volatile) × Bool :=
  (state, responses.all (fun r => r.min_proposal_number == proposal_number))

/-- The ordering relation in the words of the specification: lexicographic
with `round` as the primary key and the endpoint, ip address then port, as
the deterministic tiebreaker. -/
def ltSpec (a b : ProposalNumber) : Prop :=
  a.round < b.round ∨ (a.round = b.round ∧
    (a.proposer_ip < b.proposer_ip ∨
      (a.proposer_ip = b.proposer_ip ∧ a.proposer_port < b.proposer_port)))

theorem cmpLtChar (a b : ProposalNumber) :
    a.cmp b = Ordering.lt ↔ ltSpec a b := by
  unfold ProposalNumber.cmp ltSpec
  split_ifs <;> rw [Nat.compare_eq_lt] <;> omega

theorem cmpGtChar (a b : ProposalNumber) :
    a.cmp b = Ordering.gt ↔ ltSpec b a := by
  unfold ProposalNumber.cmp ltSpec
  split_ifs <;> rw [Nat.compare_eq_gt] <;> omega

theorem cmpEqChar (a b : ProposalNumber) :
    a.cmp b = Ordering.eq ↔ a = b := by
  cases a; cases b
  unfold ProposalNumber.cmp
  simp only [ProposalNumber.mk.injEq]
  split_ifs <;> rw [Nat.compare_eq_eq] <;> omega

theorem pnLt_eq_true_iff (a b : ProposalNumber) :
    pnLt a b = true ↔ ltSpec a b := by
  rw [← cmpLtChar a b]
  unfold pnLt
  cases h : a.cmp b <;> simp_all <;> decide

theorem pnGt_eq_true_iff (a b : ProposalNumber) :
    pnGt a b = true ↔ ltSpec b a := by
  rw [← cmpGtChar a b]
  unfold pnGt
  cases h : a.cmp b <;> simp_all <;> decide

theorem pnGe_eq_true_iff (a b : ProposalNumber) :
    pnGe a b = true ↔ ¬ ltSpec a b := by
  rw [← cmpLtChar a b]
  unfold pnGe
  cases h : a.cmp b <;> simp_all <;> decide

theorem pnGe_eq_false_iff (a b : ProposalNumber) :
    pnGe a b = false ↔ ltSpec a b := by
  rw [← cmpLtChar a b]
  unfold pnGe
  cases h : a.cmp b <;> simp_all <;> decide

theorem pnGe_refl (a : ProposalNumber) : pnGe a a = true := by
  simp [pnGe_eq_true_iff, ltSpec]

theorem pnGt_imp_pnGe {a b : ProposalNumber} (h : pnGt a b = true) :
    pnGe a b = true := by
  rw [pnGt_eq_true_iff] at h
  rw [pnGe_eq_true_iff]
  unfold ltSpec at h ⊢
  omega

theorem pnGe_of_not_pnGe {a b : ProposalNumber} (h : pnGe a b = false) :
    pnGe b a = true := by
  rw [pnGe_eq_false_iff] at h
  rw [pnGe_eq_true_iff]
  unfold ltSpec at h ⊢
  omega

theorem pnGe_trans {a b c : ProposalNumber} (hab : pnGe a b = true)
    (hbc : pnGe b c = true) : pnGe a c = true := by
  rw [pnGe_eq_true_iff] at hab hbc ⊢
  unfold ltSpec at hab hbc ⊢
  omega

/-- C10: for every state — reachable or not — and every accept request,
after the `accept` handler's conditional update `min_proposal_number` is
set, so the final `unwrap` in the handler cannot fail and a response is
always produced, even when the accept is the very first request ever
handled. -/
theorem C10_accept_unwrap_never_fails (request : AcceptRequest)
    (state : Durable × Volatile) : (accept request state).isSome = true := by
  unfold accept
  rcases h : state.1.min_proposal_number with _ | m
  · simp [h]
  · by_cases hge : pnGe request.proposal.1 m <;> simp [h, hge]

/-- C9: the proposal-number ordering is a total order that compares
lexicographically, round first, then the endpoint (ip address, then
port): `a < b` iff `a.round < b.round` or the rounds agree and `a`'s
endpoint is smaller; in particular `(0, addr1) < (0, addr2) < (1, addr0)`
whenever `addr1 < addr2`. -/
theorem C9_proposal_number_ordering :
    (∀ a b : ProposalNumber, pnLt a b = true ↔ ltSpec a b) ∧
    (∀ a : ProposalNumber, pnLt a a = false) ∧
    (∀ a b c : ProposalNumber,
      pnLt a b = true → pnLt b c = true → pnLt a c = true) ∧
    (∀ a b : ProposalNumber, pnLt a b = true ∨ a = b ∨ pnLt b a = true) ∧
    (∀ i0 p0 i1 p1 i2 p2 : Nat,
      (i1 < i2 ∨ (i1 = i2 ∧ p1 < p2)) →
      pnLt ⟨0, i1, p1⟩ ⟨0, i2, p2⟩ = true ∧
      pnLt ⟨0, i2, p2⟩ ⟨1, i0, p0⟩ = true) := by
  refine ⟨pnLt_eq_true_iff, ?_, ?_, ?_, ?_⟩
  · intro a
    rw [Bool.eq_false_iff, ne_eq, pnLt_eq_true_iff]
    unfold ltSpec
    omega
  · intro a b c hab hbc
    rw [pnLt_eq_true_iff] at hab hbc ⊢
    unfold ltSpec at hab hbc ⊢
    omega
  · intro a b
    rcases h : a.cmp b with _ | _ | _
    · exact Or.inl (by simp only [pnLt, h]; decide)
    · exact Or.inr (Or.inl ((cmpEqChar a b).mp h))
    · refine Or.inr (Or.inr ?_)
      rw [pnLt_eq_true_iff]
      exact (cmpGtChar a b).mp h
  · intro i0 p0 i1 p1 i2 p2 h
    constructor
    · rw [pnLt_eq_true_iff]
      unfold ltSpec
      simp
      omega
    · rw [pnLt_eq_true_iff]
      unfold ltSpec
      simp


/-- Witness for C9: concrete proposal numbers with equal rounds and
ordered endpoints. -/
theorem C9_proposal_number_ordering_witness :
    pnLt ⟨0, 1, 8080⟩ ⟨0, 2, 7⟩ = true ∧
    pnLt ⟨0, 2, 7⟩ ⟨1, 0, 0⟩ = true :=
  C9_proposal_number_ordering.2.2.2.2 0 0 1 8080 2 7 (by decide)

/-- C2: a `prepare` with no proposal number leaves the state unchanged; a
`prepare` carrying `n` sets `min_proposal_number := n` exactly when the
promise is unset or `n` is strictly greater, and otherwise changes
nothing; the response always carries the current `accepted_proposal`; and
whenever a promise existed before the call the promise after the call is
at least as large. -/
theorem C2_prepare_spec (request : PrepareRequest)
    (state : Durable × Volatile) :
    (request.proposal_number = none →
      prepare request state =
        (state, { accepted_proposal := state.1.accepted_proposal })) ∧
    (∀ n, request.proposal_number = some n →
      ((state.1.min_proposal_number = none ∨
        (∃ m, state.1.min_proposal_number = some m ∧ pnGt n m = true)) →
        (prepare request state).1 =
          ({ state.1 with min_proposal_number := some n }, state.2)) ∧
      (∀ m, state.1.min_proposal_number = some m → pnGt n m = false →
        (prepare request state).1 = state)) ∧
    ((prepare request state).2.accepted_proposal =
      (prepare request state).1.1.accepted_proposal) ∧
    (∀ m, state.1.min_proposal_number = some m →
      ∃ n', (prepare request state).1.1.min_proposal_number = some n' ∧
        pnGe n' m = true) := by
  refine ⟨?_, ?_, rfl, ?_⟩
  · intro h
    simp [prepare, h]
  · intro n hn
    constructor
    · rintro (hmin | ⟨m, hm, hgt⟩)
      · simp [prepare, hn, hmin]
      · simp [prepare, hn, hm, hgt]
    · intro m hm hgt
      simp [prepare, hn, hm, hgt]
  · intro m hm
    rcases hpn : request.proposal_number with _ | n
    · exact ⟨m, by simp [prepare, hpn, hm], pnGe_refl m⟩
    · by_cases hgt : pnGt n m = true
      · exact ⟨n, by simp [prepare, hpn, hm, hgt], pnGt_imp_pnGe hgt⟩
      · rw [Bool.not_eq_true] at hgt
        exact ⟨m, by simp [prepare, hpn, hm, hgt], pnGe_refl m⟩

/-- Witness for C2: a prepare with proposal number (1,0,0) against the
initial state installs that number as the promise. -/
theorem C2_prepare_spec_witness :
    (prepare { proposal_number := some ⟨1, 0, 0⟩ } initial).1 =
      ({ next_round := 0, min_proposal_number := some ⟨1, 0, 0⟩,
         accepted_proposal := none }, { chosen_value := none }) :=
  ((C2_prepare_spec { proposal_number := some ⟨1, 0, 0⟩ } initial).2.1
    ⟨1, 0, 0⟩ rfl).1 (Or.inl rfl)

theorem pnGe_of_pnGt_eq_false {a b : ProposalNumber} (h : pnGt a b = false) :
    pnGe b a = true := by
  rw [Bool.eq_false_iff, ne_eq, pnGt_eq_true_iff] at h
  rw [pnGe_eq_true_iff]
  exact h

theorem accept_eq_adopt (request : AcceptRequest) (state : Durable × Volatile)
    (h : state.1.min_proposal_number = none ∨
      (∃ m, state.1.min_proposal_number = some m ∧
        pnGe request.proposal.1 m = true)) :
    accept request state =
      some (({ state.1 with
          min_proposal_number := some request.proposal.1,
          accepted_proposal := some request.proposal }, state.2),
        { min_proposal_number := request.proposal.1 }) := by
  rcases h with h | ⟨m, hm, hge⟩
  · simp [accept, h]
  · simp [accept, hm, hge]

theorem accept_eq_reject (request : AcceptRequest) (state : Durable × Volatile)
    (m : ProposalNumber) (hm : state.1.min_proposal_number = some m)
    (hge : pnGe request.proposal.1 m = false) :
    accept request state = some (state, { min_proposal_number := m }) := by
  simp [accept, hm, hge]

/-- C1: the `accept` handler adopts the proposal (both promise and
accepted proposal) exactly when the promise is unset or the requested
number is at least the promise, and otherwise changes nothing; the
returned `min_proposal_number` is the post-state promise, equal to the
request's number on acceptance and at least the request's number on
rejection. -/
theorem C1_accept_spec (request : AcceptRequest)
    (state : Durable × Volatile) :
    ∃ state' response, accept request state = some (state', response) ∧
      state'.1.min_proposal_number = some response.min_proposal_number ∧
      ((state.1.min_proposal_number = none ∨
        (∃ m, state.1.min_proposal_number = some m ∧
          pnGe request.proposal.1 m = true)) →
        state' = ({ state.1 with
            min_proposal_number := some request.proposal.1,
            accepted_proposal := some request.proposal }, state.2) ∧
        response.min_proposal_number = request.proposal.1) ∧
      (∀ m, state.1.min_proposal_number = some m →
        pnGe request.proposal.1 m = false →
        state' = state ∧ response.min_proposal_number = m ∧
        pnGe response.min_proposal_number request.proposal.1 = true) := by
  by_cases hc : state.1.min_proposal_number = none ∨
      (∃ m, state.1.min_proposal_number = some m ∧
        pnGe request.proposal.1 m = true)
  · refine ⟨_, _, accept_eq_adopt request state hc, rfl,
      fun _ => ⟨rfl, rfl⟩, ?_⟩
    intro m hm hge
    exfalso
    rcases hc with hc | ⟨m', hm', hge'⟩
    · rw [hc] at hm
      cases hm
    · rw [hm] at hm'
      injection hm' with hm'
      subst hm'
      rw [hge] at hge'
      cases hge'
  · push_neg at hc
    obtain ⟨hne, hall⟩ := hc
    rcases hmin : state.1.min_proposal_number with _ | m
    · exact absurd hmin hne
    · have hge : pnGe request.proposal.1 m = false := by
        have := hall m hmin
        cases hb : pnGe request.proposal.1 m
        · rfl
        · exact absurd hb this
      refine ⟨_, _, accept_eq_reject request state m hmin hge, hmin,
        ?_, ?_⟩
      · rintro (hnone | ⟨m', hm', hge'⟩)
        · cases hnone
        · injection hm' with hm'
          subst hm'
          rw [hge] at hge'
          cases hge'
      · intro m' hm' _
        injection hm' with hm'
        subst hm'
        exact ⟨rfl, rfl, pnGe_of_not_pnGe hge⟩

/-- Witness for C1: accepting (0,0,1) with value "foo" against the
initial state installs it and echoes its number. -/
theorem C1_accept_spec_witness :
    ∃ state' response,
      accept { proposal := (⟨0, 0, 1⟩, "foo") } initial =
        some (state', response) ∧
      state' = ({ next_round := 0, min_proposal_number := some ⟨0, 0, 1⟩,
                  accepted_proposal := some (⟨0, 0, 1⟩, "foo") },
                { chosen_value := none }) ∧
      response.min_proposal_number = ⟨0, 0, 1⟩ := by
  obtain ⟨s', r', heq, hpost, hacc, hrej⟩ :=
    C1_accept_spec { proposal := (⟨0, 0, 1⟩, "foo") } initial
  obtain ⟨hs, hr⟩ := hacc (Or.inl rfl)
  exact ⟨s', r', heq, hs, hr⟩

/-- Invariant I2 as a predicate on states: if `accepted_proposal` is set
then `min_proposal_number` is set and at least the accepted proposal's
number. -/
def I2 (state : Durable × Volatile) : Prop :=
  ∀ p, state.1.accepted_proposal = some p →
    ∃ m, state.1.min_proposal_number = some m ∧ pnGe m p.1 = true

/-- C3: invariant I2 holds of the initial state and is preserved by every
application of `prepare`, `accept` and `choose`. -/
theorem C3_invariant_I2_preserved :
    I2 initial ∧
    (∀ request state, I2 state → I2 (prepare request state).1) ∧
    (∀ request state state' response, I2 state →
      accept request state = some (state', response) → I2 state') ∧
    (∀ request state, I2 state → I2 (choose request state).1.1) := by
  refine ⟨?_, ?_, ?_, ?_⟩
  · intro p hp
    simp [initial] at hp
  · intro request state h
    unfold I2 at h ⊢
    intro p hp
    rcases hpn : request.proposal_number with _ | n
    · simp only [prepare, hpn] at hp ⊢
      exact h p hp
    · rcases hmin : state.1.min_proposal_number with _ | m
      · simp only [prepare, hpn, hmin] at hp ⊢
        rcases h p hp with ⟨m', hm', _⟩
        rw [hmin] at hm'
        cases hm'
      · by_cases hgt : pnGt n m = true
        · simp only [prepare, hpn, hmin, hgt, if_true] at hp ⊢
          rcases h p hp with ⟨m', hm', hge⟩
          rw [hmin] at hm'
          injection hm' with hm'
          subst hm'
          exact ⟨n, rfl, pnGe_trans (pnGt_imp_pnGe hgt) hge⟩
        · rw [Bool.not_eq_true] at hgt
          simp only [prepare, hpn, hmin, hgt, if_false] at hp ⊢
          exact h p hp
  · intro request state state' response h hacc
    by_cases hc : state.1.min_proposal_number = none ∨
        (∃ m, state.1.min_proposal_number = some m ∧
          pnGe request.proposal.1 m = true)
    · rw [accept_eq_adopt request state hc] at hacc
      injection hacc with hacc
      have h1 : ({ state.1 with
          min_proposal_number := some request.proposal.1,
          accepted_proposal := some request.proposal }, state.2) = state' :=
        congrArg Prod.fst hacc
      subst h1
      unfold I2
      intro p hp
      obtain rfl : request.proposal = p := by simpa using hp
      exact ⟨request.proposal.1, rfl, pnGe_refl _⟩
    · push_neg at hc
      obtain ⟨hne, hall⟩ := hc
      rcases hmin : state.1.min_proposal_number with _ | m
      · exact absurd hmin hne
      · have hge : pnGe request.proposal.1 m = false := by
          have := hall m hmin
          rcases hb : pnGe request.proposal.1 m
          · rfl
          · exact absurd hb this
        rw [accept_eq_reject request state m hmin hge] at hacc
        injection hacc with hacc
        have h1 : state = state' := congrArg Prod.fst hacc
        subst h1
        exact h
  · intro request state h
    unfold I2 at h ⊢
    rcases hc : state.2.chosen_value with _ | v <;>
      simp only [choose, hc] <;> exact h

/-- Witness for C3: the invariant propagates through a concrete prepare
from the initial state. -/
theorem C3_invariant_I2_preserved_witness :
    I2 ((prepare { proposal_number := some ⟨1, 2, 3⟩ } initial).1) :=
  C3_invariant_I2_preserved.2.1 { proposal_number := some ⟨1, 2, 3⟩ } initial
    (by intro p hp; simp [initial] at hp)

theorem runChoose_of_chosen (requests : List ChooseRequest)
    (state : Durable × Volatile) (v : String)
    (h : state.2.chosen_value = some v) :
    (runChoose state requests).1.2.chosen_value = some v ∧
    (runChoose state requests).2 = [] := by
  induction requests generalizing state with
  | nil => exact ⟨h, rfl⟩
  | cons r rs ih =>
    have hstep : choose r state = ((state, []), {}) := by
      simp [choose, h]
    simp only [runChoose, hstep]
    simpa using ih state h

theorem runChoose_emits_at_most_once (requests : List ChooseRequest)
    (state : Durable × Volatile) :
    (runChoose state requests).2.length ≤ 1 := by
  induction requests generalizing state with
  | nil => simp [runChoose]
  | cons r rs ih =>
    rcases h : state.2.chosen_value with _ | v
    · have hstep : choose r state =
          (((state.1, { chosen_value := some r.value }), [r.value]), {}) := by
        simp [choose, h]
      simp only [runChoose, hstep]
      have := (runChoose_of_chosen rs
        (state.1, { chosen_value := some r.value }) r.value rfl).2
      simp [this]
    · have hstep : choose r state = ((state, []), {}) := by
        simp [choose, h]
      simp only [runChoose, hstep]
      simpa using ih state

/-- C6: a `choose` with `chosen_value` unset records the value and emits
exactly one stdout line; once `chosen_value` is set, any further `choose`
leaves the state unchanged and emits nothing; hence over any sequence of
`choose` calls the learn sink emits at most once and `chosen_value`, once
set, never changes. -/
theorem C6_choose_idempotent :
    (∀ request state, state.2.chosen_value = none →
      (choose request state).1 =
        ((state.1, { chosen_value := some request.value }),
          [request.value])) ∧
    (∀ request state v, state.2.chosen_value = some v →
      (choose request state).1 = (state, [])) ∧
    (∀ state requests v, state.2.chosen_value = some v →
      (runChoose state requests).1.2.chosen_value = some v ∧
      (runChoose state requests).2 = []) ∧
    (∀ state requests, (runChoose state requests).2.length ≤ 1) := by
  refine ⟨?_, ?_, ?_, ?_⟩
  · intro request state h
    simp [choose, h]
  · intro request state v h
    simp [choose, h]
  · intro state requests v h
    exact runChoose_of_chosen requests state v h
  · intro state requests
    exact runChoose_emits_at_most_once requests state

/-- Witness for C6: choosing "x" in the initial state records it and
emits it; choosing "y" afterwards is a no-op. -/
theorem C6_choose_idempotent_witness :
    (choose { value := "x" } initial).1 =
      ((initial.1, { chosen_value := some "x" }), ["x"]) ∧
    (choose { value := "y" }
        (initial.1, { chosen_value := some "x" })).1 =
      ((initial.1, { chosen_value := some "x" }), []) :=
  ⟨C6_choose_idempotent.1 { value := "x" } initial rfl,
   C6_choose_idempotent.2.1 { value := "y" }
     (initial.1, { chosen_value := some "x" }) "x" rfl⟩

theorem handle_prepare_ok (r : PrepareRequest) (state : Durable × Volatile)
    (disk : Disk) :
    handle_request (RpcRequest.prepare r) state disk true =
      Except.ok ((prepare r state).1,
        { contents := some (prepare r state).1.1,
          writes := disk.writes + 1 },
        [], RpcResponse.prepare (prepare r state).2) := rfl

theorem handle_choose_ok (r : ChooseRequest) (state : Durable × Volatile)
    (disk : Disk) :
    handle_request (RpcRequest.choose r) state disk true =
      Except.ok ((choose r state).1.1,
        { contents := some (choose r state).1.1.1,
          writes := disk.writes + 1 },
        (choose r state).1.2, RpcResponse.choose (choose r state).2) := rfl

theorem handle_accept_ok (r : AcceptRequest) (state : Durable × Volatile)
    (disk : Disk) (state' : Durable × Volatile) (response : AcceptResponse)
    (ha : accept r state = some (state', response)) :
    handle_request (RpcRequest.accept r) state disk true =
      Except.ok (state',
        { contents := some state'.1, writes := disk.writes + 1 },
        [], RpcResponse.accept response) := by
  simp [handle_request, ha, stateWrite]

theorem handle_request_error_of_write_failure (request : RpcRequest)
    (state : Durable × Volatile) (disk : Disk) :
    handle_request request state disk false = Except.error () := by
  cases request with
  | prepare r => rfl
  | accept r => rcases ha : accept r state with _ | pr <;>
      simp [handle_request, ha, stateWrite]
  | choose r => rfl

/-- C7: for every inbound RPC, the durable state resulting from the
handler is written to the data file and the response is produced only
when that write succeeds: a successful result always carries a disk whose
contents are exactly the durable half of the state that produced the
response, and a failed persist turns the whole request into an error. -/
theorem C7_persist_before_respond (request : RpcRequest)
    (state : Durable × Volatile) (disk : Disk) (writeOk : Bool) :
    (∀ state' disk' out response,
      handle_request request state disk writeOk =
        Except.ok (state', disk', out, response) →
      writeOk = true ∧ disk'.contents = some state'.1 ∧
      disk'.writes = disk.writes + 1) ∧
    (writeOk = false →
      handle_request request state disk writeOk = Except.error ()) := by
  constructor
  · intro state' disk' out response hok
    cases writeOk
    · rw [handle_request_error_of_write_failure request state disk] at hok
      cases hok
    · refine ⟨rfl, ?_⟩
      cases request with
      | prepare r =>
        rw [handle_prepare_ok r state disk] at hok
        injection hok with hok
        have h1 : (prepare r state).1 = state' := congrArg Prod.fst hok
        have h2 : ({ contents := some (prepare r state).1.1,
                     writes := disk.writes + 1 } : Disk) = disk' :=
          congrArg (fun x => x.2.1) hok
        subst h1
        subst h2
        exact ⟨rfl, rfl⟩
      | accept r =>
        rcases ha : accept r state with _ | ⟨s1, r1⟩
        · simp only [handle_request, ha] at hok
          cases hok
        · rw [handle_accept_ok r state disk s1 r1 ha] at hok
          injection hok with hok
          have h1 : s1 = state' := congrArg Prod.fst hok
          have h2 : ({ contents := some s1.1,
                       writes := disk.writes + 1 } : Disk) = disk' :=
            congrArg (fun x => x.2.1) hok
          subst h1
          subst h2
          exact ⟨rfl, rfl⟩
      | choose r =>
        rw [handle_choose_ok r state disk] at hok
        injection hok with hok
        have h1 : (choose r state).1.1 = state' := congrArg Prod.fst hok
        have h2 : ({ contents := some (choose r state).1.1.1,
                     writes := disk.writes + 1 } : Disk) = disk' :=
          congrArg (fun x => x.2.1) hok
        subst h1
        subst h2
        exact ⟨rfl, rfl⟩
  · intro hw
    subst hw
    exact handle_request_error_of_write_failure request state disk

/-- Witness for C7: a prepare against the initial state with a succeeding
write yields the persisted durable state; with a failing write it yields
an error. -/
theorem C7_persist_before_respond_witness :
    (true = true ∧
      ({ contents := some initial.1, writes := 1 } : Disk).contents =
        some ((prepare { proposal_number := none } initial).1).1 ∧
      ({ contents := some initial.1, writes := 1 } : Disk).writes =
        ({ contents := none, writes := 0 } : Disk).writes + 1) ∧
    handle_request (RpcRequest.prepare { proposal_number := none }) initial
      { contents := none, writes := 0 } false = Except.error () :=
  ⟨(C7_persist_before_respond
      (RpcRequest.prepare { proposal_number := none })
      initial { contents := none, writes := 0 } true).1
      (prepare { proposal_number := none } initial).1
      { contents := some initial.1, writes := 1 } []
      (RpcResponse.prepare (prepare { proposal_number := none } initial).2)
      rfl,
   (C7_persist_before_respond
      (RpcRequest.prepare { proposal_number := none })
      initial { contents := none, writes := 0 } false).2 rfl⟩

/-- C8 counterexample: handling a `/choose` request does write the
durable state to the data file — the write counter advances from 0 to 1,
so "no write is performed" is false. -/
theorem C8_choose_no_persist_counterexample :
    handle_request (RpcRequest.choose { value := "v" }) initial
        { contents := none, writes := 0 } true =
      Except.ok ((initial.1, { chosen_value := some "v" }),
        { contents := some initial.1, writes := 1 }, ["v"],
        RpcResponse.choose {}) ∧ (1 : Nat) ≠ 0 :=
  ⟨rfl, by decide⟩

/-- C8 (amended): handling a `/choose` request persists the durable state
exactly like the other RPCs — one write of the data file per successful
request — but the durable record written equals the pre-request durable
state, since `choose` mutates only volatile state. -/
theorem C8_choose_persist_leaves_durable (r : ChooseRequest)
    (state : Durable × Volatile) (disk : Disk) (writeOk : Bool)
    (state' : Durable × Volatile) (disk' : Disk) (out : List String)
    (response : RpcResponse)
    (hok : handle_request (RpcRequest.choose r) state disk writeOk =
      Except.ok (state', disk', out, response)) :
    disk'.writes = disk.writes + 1 ∧ disk'.contents = some state.1 ∧
    state'.1 = state.1 := by
  cases writeOk
  · rw [handle_request_error_of_write_failure _ state disk] at hok
    cases hok
  · rw [handle_choose_ok r state disk] at hok
    injection hok with hok
    have h1 : (choose r state).1.1 = state' := congrArg Prod.fst hok
    have h2 : ({ contents := some (choose r state).1.1.1,
                 writes := disk.writes + 1 } : Disk) = disk' :=
      congrArg (fun x => x.2.1) hok
    subst h1
    subst h2
    have hd : (choose r state).1.1.1 = state.1 := by
      rcases hc : state.2.chosen_value with _ | v <;> simp [choose, hc]
    exact ⟨rfl, congrArg some hd, hd⟩

/-- Witness for C8 (amended): a concrete `/choose` against the initial
state writes once, and writes the unchanged durable record. -/
theorem C8_choose_persist_leaves_durable_witness :
    ({ contents := some initial.1, writes := 1 } : Disk).writes =
      ({ contents := none, writes := 0 } : Disk).writes + 1 ∧
    ({ contents := some initial.1, writes := 1 } : Disk).contents =
      some initial.1 ∧
    ((initial.1, ({ chosen_value := some "v" } : Volatile))).1 = initial.1 :=
  C8_choose_persist_leaves_durable { value := "v" } initial
    { contents := none, writes := 0 } true
    (initial.1, { chosen_value := some "v" })
    { contents := some initial.1, writes := 1 } ["v"]
    (RpcResponse.choose {}) rfl

theorem max_by_key_pn_mem_max (l : List (ProposalNumber × String))
    (hne : l ≠ []) :
    ∃ best, best ∈ l ∧ max_by_key_pn l = some best ∧
      ∀ x ∈ l, pnGe best.1 x.1 = true := by
  induction l with
  | nil => cases hne rfl
  | cons x xs ih =>
    by_cases hx : xs = []
    · subst hx
      refine ⟨x, List.mem_singleton.mpr rfl, by simp [max_by_key_pn], ?_⟩
      intro z hz
      rw [List.mem_singleton] at hz
      subst hz
      exact pnGe_refl _
    · obtain ⟨best, hmem, hmax, hall⟩ := ih hx
      by_cases hgt : pnGt x.1 best.1 = true
      · refine ⟨x, List.mem_cons_self x xs,
          by simp [max_by_key_pn, hmax, hgt], ?_⟩
        intro z hz
        rcases List.mem_cons.mp hz with rfl | hz
        · exact pnGe_refl _
        · exact pnGe_trans (pnGt_imp_pnGe hgt) (hall z hz)
      · rw [Bool.not_eq_true] at hgt
        refine ⟨best, List.mem_cons_of_mem x hmem,
          by simp [max_by_key_pn, hmax, hgt], ?_⟩
        intro z hz
        rcases List.mem_cons.mp hz with rfl | hz
        · exact pnGe_of_pnGt_eq_false hgt
        · exact hall z hz

/-- C4: in the value-selection step after the prepare quorum, if no
response carries an accepted proposal the proposer keeps its original
value; otherwise the value proposed is the value of an accepted proposal
whose proposal number is maximal among all accepted proposals reported by
the quorum. -/
theorem C4_pickup_rule (responses : List PrepareResponse)
    (original_value : String) :
    (responses.filterMap (fun r => r.accepted_proposal) = [] →
      selectValue responses original_value = original_value) ∧
    (responses.filterMap (fun r => r.accepted_proposal) ≠ [] →
      ∃ best,
        best ∈ responses.filterMap (fun r => r.accepted_proposal) ∧
        selectValue responses original_value = best.2 ∧
        ∀ other ∈ responses.filterMap (fun r => r.accepted_proposal),
          pnGe best.1 other.1 = true) := by
  constructor
  · intro h
    simp [selectValue, h, max_by_key_pn]
  · intro h
    obtain ⟨best, hmem, hmax, hall⟩ := max_by_key_pn_mem_max _ h
    exact ⟨best, hmem, by simp [selectValue, hmax], hall⟩

/-- Witness for C4: with one response carrying ((1,0,0), "a") and one
empty response, the selected value is "a". -/
theorem C4_pickup_rule_witness :
    ∃ best,
      best ∈ ([{ accepted_proposal := some (⟨1, 0, 0⟩, "a") },
        { accepted_proposal := none }] :
          List PrepareResponse).filterMap (fun r => r.accepted_proposal) ∧
      selectValue [{ accepted_proposal := some (⟨1, 0, 0⟩, "a") },
        { accepted_proposal := none }] "orig" = best.2 ∧
      ∀ other ∈ ([{ accepted_proposal := some (⟨1, 0, 0⟩, "a") },
        { accepted_proposal := none }] :
          List PrepareResponse).filterMap (fun r => r.accepted_proposal),
        pnGe best.1 other.1 = true :=
  (C4_pickup_rule [{ accepted_proposal := some (⟨1, 0, 0⟩, "a") },
    { accepted_proposal := none }] "orig").2 (by decide)

/-- C5 counterexample: with the proposer's own round 0 and `next_round`
1, a quorum response reporting `min_proposal_number` with round 5 leaves
`next_round` at 1 — the accept phase does not bump it to the observed
round + 1. -/
theorem C5_no_next_round_bump_counterexample :
    (accept_phase ({ next_round := 1, min_proposal_number := some ⟨0, 0, 0⟩,
                     accepted_proposal := none },
        { chosen_value := none }) ⟨0, 0, 0⟩
        [{ min_proposal_number := ⟨5, 0, 0⟩ }]).1.1.next_round = 1 ∧
    (1 : Nat) ≠ 5 + 1 :=
  ⟨rfl, by decide⟩

/-- C5 (amended): the accept phase of a `propose` iteration leaves the
proposer's local state — `next_round` included — unchanged for every
collection of quorum responses; its only outcome is the retry decision:
the proposal counts as chosen iff every response reports exactly the
proposer's own proposal number. -/
theorem C5_accept_phase_state_unchanged (state : Durable × Volatile)
    (proposal_number : ProposalNumber)
    (responses : List AcceptResponse) :
    (accept_phase state proposal_number responses).1 = state ∧
    ((accept_phase state proposal_number responses).2 = true ↔
      ∀ r ∈ responses, r.min_proposal_number = proposal_number) := by
  refine ⟨rfl, ?_⟩
  simp [accept_phase, List.all_eq_true]
